import Mathlib

/-!
Shallow embedding of the vaccination-card service in `src/main.py`:
the data model (`DoseEnum`, `Vaccine`, `Person`, `Vaccination`), the
dose-sequencing validator (`create_vaccination` with its helpers
`ensure_dose_allowed` and `ensure_dose_order`) and the card projector
(`get_card` in list and matrix formats).  The SQLite store is modelled
as in-memory lists inside a `DB` record; SQLAlchemy queries become
filters and finds over those lists; raised `HTTPException`s become
values of `RejectKind`; dates and timestamps are modelled as natural
numbers (ordinal day / tick counts), which preserves their ordering.
-/

/-- The dose-label vocabulary (`DoseEnum` in the source). -/
inductive DoseEnum
  | D1
  | D2
  | D3
  | R1
  | R2
deriving DecidableEq

/-- The stored string value of a dose label (`DoseEnum.value` in Python,
where the enum members are string-valued). -/
def DoseEnum.value : DoseEnum → String
  | .D1 => "D1"
  | .D2 => "D2"
  | .D3 => "D3"
  | .R1 => "R1"
  | .R2 => "R2"

/-- The fixed global dose ordering (`DOSE_ORDER`). -/
def DOSE_ORDER : List DoseEnum := [.D1, .D2, .D3, .R1, .R2]

/-- The index of each dose label in the global ordering
(`ORDER_INDEX = {d: i for i, d in enumerate(DOSE_ORDER)}`). -/
def ORDER_INDEX : DoseEnum → Nat
  | .D1 => 0
  | .D2 => 1
  | .D3 => 2
  | .R1 => 3
  | .R2 => 4

/-- Recover a dose label from its stored string, as the Python call
`DoseEnum(s)` does; Python raises on an unknown string, modelled as
`none`. -/
def DoseEnum.fromValue (s : String) : Option DoseEnum :=
  DOSE_ORDER.find? (fun d => decide (d.value = s))

/-- A catalog vaccine (`Vaccine`).  The stored `allowed_doses` column is
a JSON text blob; we model the result of decoding it: `some l` when
`json.loads` succeeds and yields the string list `l`, `none` when the
stored text is unreadable (the `except` branch of `allowed_list`). -/
structure Vaccine where
  id : String
  name : String
  code : String
  allowed_doses : Option (List String)
deriving DecidableEq

/-- `Vaccine.allowed_list`: the decoded allowed set, falling back to the
full default global ordering when the stored text does not decode. -/
def Vaccine.allowed_list (v : Vaccine) : List String :=
  match v.allowed_doses with
  | some l => l
  | none => DOSE_ORDER.map DoseEnum.value

/-- A registered person (`Person`). -/
structure Person where
  id : String
  name : String
  document : String
  sex : String
  age : Nat
deriving DecidableEq

/-- A stored dose record (`Vaccination`); `dose` stores the string value
of a `DoseEnum` member. -/
structure Vaccination where
  id : String
  person_id : String
  vaccine_id : String
  dose : String
  applied_at : Nat
  lot : Option String
  location : Option String
  created_at : Nat
deriving DecidableEq

/-- The database state: the three tables of `main.py`. -/
structure DB where
  people : List Person
  vaccines : List Vaccine
  vaccinations : List Vaccination

/-- Primary-key lookup `db.get(Person, pid)`. -/
def DB.getPerson (db : DB) (pid : String) : Option Person :=
  db.people.find? (fun p => decide (p.id = pid))

/-- Primary-key lookup `db.get(Vaccine, vid)`. -/
def DB.getVaccine (db : DB) (vid : String) : Option Vaccine :=
  db.vaccines.find? (fun v => decide (v.id = vid))

/-- The body of a `POST /vaccinations` request (`VaccinationIn`). -/
structure VaccinationIn where
  person_id : String
  vaccine_id : String
  dose : DoseEnum
  applied_at : Nat
  lot : Option String
  location : Option String

/-- The typed rejection kinds of the validator: each corresponds to one
`HTTPException` raised on the `create_vaccination` path (404 person,
404 vaccine, 422 dose not allowed, 409 sequence violation carrying the
missing prior dose, 409 duplicate). -/
inductive RejectKind
  | personNotFound
  | vaccineNotFound
  | doseNotAllowed (dose : DoseEnum) (vaccineName : String)
  | sequenceViolation (dose : DoseEnum) (missingPriorDose : DoseEnum)
  | duplicateDose
deriving DecidableEq

/-- `ensure_dose_allowed(vac, dose)`: raises 422 when the candidate dose
value is not in the vaccine's allowed list. -/
def ensure_dose_allowed (vac : Vaccine) (dose : DoseEnum) : Except RejectKind Unit :=
  if dose.value ∈ vac.allowed_list then .ok ()
  else .error (.doseNotAllowed dose vac.name)

/-- The dose strings on file for a (person, vaccine) pair: the result of
the `filter_by(person_id=…, vaccine_id=…)` query projected to its dose
column, i.e. the `existing` set of `ensure_dose_order`. -/
def pairDoses (recs : List Vaccination) (pid vid : String) : List String :=
  (recs.filter (fun r => decide (r.person_id = pid ∧ r.vaccine_id = vid))).map
    (fun r => r.dose)

/-- `ensure_dose_order(db, person_id, vaccine_id, dose)`: requires every
dose label preceding the candidate in the global ordering to exist in
the person's history for that vaccine; raises 409 naming the first
missing one.  `recs` is the `vaccinations` table the query runs over. -/
def ensure_dose_order (recs : List Vaccination) (person_id vaccine_id : String)
    (dose : DoseEnum) : Except RejectKind Unit :=
  let idx := ORDER_INDEX dose
  if idx = 0 then .ok ()
  else
    let existing := pairDoses recs person_id vaccine_id
    match (DOSE_ORDER.take idx).find? (fun d => decide (d.value ∉ existing)) with
    | some d => .error (.sequenceViolation dose d)
    | none => .ok ()

/-- The validation phase of `create_vaccination`: person lookup, vaccine
lookup, allowed-dose check, sequence check (when `enforce_sequence`),
duplicate check — in exactly the source's order, first failure winning
(each Python check raises, aborting the request). -/
def create_checks (db : DB) (payload : VaccinationIn) (enforce_sequence : Bool) :
    Except RejectKind Unit :=
  match db.getPerson payload.person_id with
  | none => .error .personNotFound
  | some _ =>
    match db.getVaccine payload.vaccine_id with
    | none => .error .vaccineNotFound
    | some v =>
      match ensure_dose_allowed v payload.dose with
      | .error e => .error e
      | .ok _ =>
        match (if enforce_sequence then
                ensure_dose_order db.vaccinations payload.person_id
                  payload.vaccine_id payload.dose
              else .ok ()) with
        | .error e => .error e
        | .ok _ =>
          match db.vaccinations.find? (fun r =>
              decide (r.person_id = payload.person_id ∧
                r.vaccine_id = payload.vaccine_id ∧
                r.dose = payload.dose.value)) with
          | some _ => .error .duplicateDose
          | none => .ok ()

/-- `create_vaccination` (the `POST /vaccinations` handler): runs the
checks; on success inserts the new record (id and creation timestamp,
generated by defaults in Python, are passed in as `newId`/`now`) and
returns it; on failure the exception propagates before `db.add`, so the
state is returned unchanged together with the typed rejection. -/
def create_vaccination (db : DB) (payload : VaccinationIn) (enforce_sequence : Bool)
    (newId : String) (now : Nat) : DB × Except RejectKind Vaccination :=
  match create_checks db payload enforce_sequence with
  | .error e => (db, .error e)
  | .ok _ =>
    let newRec : Vaccination :=
      { id := newId
        person_id := payload.person_id
        vaccine_id := payload.vaccine_id
        dose := payload.dose.value
        applied_at := payload.applied_at
        lot := payload.lot
        location := payload.location
        created_at := now }
    ({ db with vaccinations := db.vaccinations ++ [newRec] }, .ok newRec)

/-- `PersonOut`: the person header echoed in the list view. -/
structure PersonOut where
  id : String
  name : String
  document : String
  sex : String
  age : Nat
deriving DecidableEq

/-- `CardEntry`: one record inside a list-view block.  `dose` is the
Python `DoseEnum(r.dose)` conversion, which raises on a string outside
the vocabulary; that impossibility is modelled as `none`. -/
structure CardEntry where
  record_id : String
  dose : Option DoseEnum
  applied_at : Nat
  lot : Option String
  location : Option String
deriving DecidableEq

/-- `CardVaccineBlock`: one vaccine's group in the list view. -/
structure CardVaccineBlock where
  vaccine_id : String
  vaccine_name : String
  entries : List CardEntry
deriving DecidableEq

/-- `CardListOut`: the list-format card view. -/
structure CardListOut where
  person : PersonOut
  vaccines : List CardVaccineBlock
deriving DecidableEq

/-- `MatrixCol`: one column header of the matrix view. -/
structure MatrixCol where
  vaccine_id : String
  vaccine_name : String
deriving DecidableEq

/-- `MatrixCell`: one populated cell of the matrix view (dose converted
back through the vocabulary, as in `CardEntry`). -/
structure MatrixCell where
  record_id : String
  applied_at : Nat
  dose : Option DoseEnum
deriving DecidableEq

/-- `CardMatrixOut`: the matrix-format card view, `grid[r][c]`. -/
structure CardMatrixOut where
  rows : List DoseEnum
  cols : List MatrixCol
  grid : List (List (Option MatrixCell))
deriving DecidableEq

/-- First-occurrence key order of a Python dict built by
`bucket.setdefault(key, []).append(...)` over a record stream: each key
appears once, at the position of its first occurrence. -/
def firstKeys : List String → List String
  | [] => []
  | k :: ks => k :: (firstKeys ks).filter (fun x => decide (x ≠ k))

/-- Projection of a stored record to a list-view entry. -/
def toCardEntry (r : Vaccination) : CardEntry :=
  { record_id := r.id
    dose := DoseEnum.fromValue r.dose
    applied_at := r.applied_at
    lot := r.lot
    location := r.location }

/-- The person's records ordered by applied date: the
`filter_by(person_id=pid).order_by(Vaccination.applied_at)` query of the
list branch of `get_card`. -/
def personRecsSorted (db : DB) (p : Person) : List Vaccination :=
  (db.vaccinations.filter (fun r => decide (r.person_id = p.id))).mergeSort
    (fun a b => decide (a.applied_at ≤ b.applied_at))

/-- The per-vaccine blocks of the list view: the sorted record stream is
bucketed by vaccine id (Python dict `setdefault`, so keys appear in
first-occurrence order and each bucket keeps the stream's order, i.e.
equals the filter of the sorted stream by that key).  When the bucket's
vaccine id is missing from the catalog the block name falls back to the
id (`v.name if v else vid`). -/
def listBlocks (db : DB) (p : Person) : List CardVaccineBlock :=
  (firstKeys ((personRecsSorted db p).map (fun r => r.vaccine_id))).map (fun k =>
    { vaccine_id := k
      vaccine_name := match db.getVaccine k with
        | some v => v.name
        | none => k
      entries := ((personRecsSorted db p).filter
        (fun r => decide (r.vaccine_id = k))).map toCardEntry })

/-- The list-format branch of `get_card`. -/
def cardListView (db : DB) (p : Person) : CardListOut :=
  { person := { id := p.id, name := p.name, document := p.document, sex := p.sex, age := p.age }
    vaccines := listBlocks db p }

/-- The `by_key[(dose, vaccine_id)]` dict lookup of the matrix branch:
the dict keeps the last record inserted under a key, i.e. the last
matching element of the stream. -/
def byDoseVaccine (recs : List Vaccination) (doseVal vid : String) : Option Vaccination :=
  recs.reverse.find? (fun r => decide (r.dose = doseVal ∧ r.vaccine_id = vid))

/-- Projection of a stored record to a populated matrix cell. -/
def toMatrixCell (r : Vaccination) : MatrixCell :=
  { record_id := r.id, applied_at := r.applied_at, dose := DoseEnum.fromValue r.dose }

/-- The matrix-format branch of `get_card`: columns are the whole
catalog ordered by vaccine name ascending, rows are `DOSE_ORDER`, and
cell `(d, c)` carries the person's record for that dose/vaccine pair
when one exists. -/
def cardMatrixView (db : DB) (p : Person) : CardMatrixOut :=
  let cols := (db.vaccines.mergeSort (fun a b => decide (a.name ≤ b.name))).map
    (fun v => { vaccine_id := v.id, vaccine_name := v.name : MatrixCol })
  let recs := db.vaccinations.filter (fun r => decide (r.person_id = p.id))
  { rows := DOSE_ORDER
    cols := cols
    grid := DOSE_ORDER.map (fun d => cols.map (fun c =>
      (byDoseVaccine recs d.value c.vaccine_id).map toMatrixCell)) }

/-- The two values of the `format` query parameter of `get_card`. -/
inductive CardFormat
  | list
  | matrix
deriving DecidableEq

/-- The two response shapes of `get_card`. -/
inductive CardView
  | listView (c : CardListOut)
  | matrixView (m : CardMatrixOut)
deriving DecidableEq

/-- `get_card` (the `GET /people/pid/card` handler): 404 (`none`) when
the person does not exist, otherwise the requested view. -/
def get_card (db : DB) (pid : String) (format : CardFormat) : Option CardView :=
  match db.getPerson pid with
  | none => none
  | some p =>
    match format with
    | .list => some (.listView (cardListView db p))
    | .matrix => some (.matrixView (cardMatrixView db p))

/-- The uniqueness invariant of the `vaccinations` table: no two stored
records share the (person, vaccine, dose label) triple — the shape the
`uq_person_vaccine_dose` unique constraint enforces. -/
def UniqueTriples (db : DB) : Prop :=
  db.vaccinations.Pairwise (fun a b =>
    ¬(a.person_id = b.person_id ∧ a.vaccine_id = b.vaccine_id ∧ a.dose = b.dose))

/-! ### Helper lemmas about the validator -/

theorem mem_pairDoses {recs : List Vaccination} {pid vid s : String} :
    s ∈ pairDoses recs pid vid ↔
      ∃ r ∈ recs, r.person_id = pid ∧ r.vaccine_id = vid ∧ r.dose = s := by
  simp only [pairDoses, List.mem_map, List.mem_filter, decide_eq_true_eq]
  constructor
  · rintro ⟨r, ⟨hr, h1, h2⟩, h3⟩
    exact ⟨r, hr, h1, h2, h3⟩
  · rintro ⟨r, hr, h1, h2, h3⟩
    exact ⟨r, ⟨hr, h1, h2⟩, h3⟩

theorem ensure_dose_allowed_ok_iff (v : Vaccine) (d : DoseEnum) :
    ensure_dose_allowed v d = .ok () ↔ d.value ∈ v.allowed_list := by
  unfold ensure_dose_allowed
  by_cases h : d.value ∈ v.allowed_list <;> simp [h]

theorem ensure_dose_allowed_error_iff (v : Vaccine) (d : DoseEnum) (e : RejectKind) :
    ensure_dose_allowed v d = .error e ↔
      (e = .doseNotAllowed d v.name ∧ d.value ∉ v.allowed_list) := by
  unfold ensure_dose_allowed
  by_cases h : d.value ∈ v.allowed_list <;> simp [h, eq_comm]

theorem ensure_dose_order_ok_iff (recs : List Vaccination) (pid vid : String)
    (dose : DoseEnum) :
    ensure_dose_order recs pid vid dose = .ok () ↔
      ∀ d ∈ DOSE_ORDER.take (ORDER_INDEX dose), d.value ∈ pairDoses recs pid vid := by
  simp only [ensure_dose_order]
  by_cases h0 : ORDER_INDEX dose = 0
  · simp [h0]
  · rw [if_neg h0]
    cases hf : (DOSE_ORDER.take (ORDER_INDEX dose)).find? (fun d =>
        decide (d.value ∉ pairDoses recs pid vid)) with
    | none =>
      simp only [hf]
      rw [List.find?_eq_none] at hf
      simp only [decide_eq_true_eq, not_not] at hf
      simpa using hf
    | some d =>
      simp only [hf]
      have hmem := List.mem_of_find?_eq_some hf
      have hp := List.find?_some hf
      simp only [decide_eq_true_eq] at hp
      constructor
      · intro h
        cases h
      · intro hall
        exact ((hp (hall d hmem)).elim)

theorem find?_first {α : Type} {p : α → Bool} :
    ∀ {l : List α} {a : α}, l.find? p = some a →
      ∃ n, ∃ hn : n < l.length, l.get ⟨n, hn⟩ = a ∧ p a = true ∧
        ∀ m, ∀ hm : m < l.length, m < n → p (l.get ⟨m, hm⟩) = false := by
  intro l
  induction l with
  | nil =>
    intro a h
    simp at h
  | cons b t ih =>
    intro a h
    by_cases hb : p b
    · rw [List.find?_cons_of_pos _ hb] at h
      obtain rfl : b = a := by injection h
      exact ⟨0, by simp, rfl, hb, fun m hm hlt => absurd hlt (by omega)⟩
    · rw [List.find?_cons_of_neg _ hb] at h
      obtain ⟨n, hn, hget, hp, hprev⟩ := ih h
      refine ⟨n + 1, by simpa using Nat.succ_lt_succ hn, by simpa using hget, hp, ?_⟩
      intro m hm hlt
      cases m with
      | zero => simpa using hb
      | succ k =>
        have hk : k < t.length := by simpa using hm
        have := hprev k hk (by omega)
        simpa using this

theorem ORDER_INDEX_lt_length (d : DoseEnum) : ORDER_INDEX d < DOSE_ORDER.length := by
  cases d <;> simp [ORDER_INDEX, DOSE_ORDER]

theorem ORDER_INDEX_get (n : Nat) (hn : n < DOSE_ORDER.length) :
    ORDER_INDEX (DOSE_ORDER.get ⟨n, hn⟩) = n := by
  have h5 : n < 5 := by simpa [DOSE_ORDER] using hn
  interval_cases n <;> rfl

theorem ensure_dose_order_error_first {recs : List Vaccination} {pid vid : String}
    {dose : DoseEnum} {e : RejectKind}
    (h : ensure_dose_order recs pid vid dose = .error e) :
    ∃ m, e = .sequenceViolation dose m ∧ ORDER_INDEX m < ORDER_INDEX dose ∧
      m.value ∉ pairDoses recs pid vid ∧
      ∀ j, ∀ hj : j < DOSE_ORDER.length, j < ORDER_INDEX m →
        (DOSE_ORDER.get ⟨j, hj⟩).value ∈ pairDoses recs pid vid := by
  simp only [ensure_dose_order] at h
  by_cases h0 : ORDER_INDEX dose = 0
  · rw [if_pos h0] at h
    cases h
  · rw [if_neg h0] at h
    cases hf : (DOSE_ORDER.take (ORDER_INDEX dose)).find? (fun d =>
        decide (d.value ∉ pairDoses recs pid vid)) with
    | none =>
      rw [hf] at h
      cases h
    | some d =>
      rw [hf] at h
      obtain rfl : RejectKind.sequenceViolation dose d = e := by injection h
      obtain ⟨n, hn, hget, hp, hprev⟩ := find?_first hf
      have hlen : (DOSE_ORDER.take (ORDER_INDEX dose)).length =
          min (ORDER_INDEX dose) DOSE_ORDER.length := by
        simp
      have hnlt : n < DOSE_ORDER.length := by
        have := ORDER_INDEX_lt_length dose
        omega
      have hgete : DOSE_ORDER.get ⟨n, hnlt⟩ = d := by
        have := @List.getElem_take _ DOSE_ORDER (ORDER_INDEX dose) n (by omega)
        simpa [this, List.get_eq_getElem] using hget
      have hidx : ORDER_INDEX d = n := by
        rw [← hgete]
        exact ORDER_INDEX_get n hnlt
      refine ⟨d, rfl, by omega, by simpa using hp, ?_⟩
      intro j hj hjn
      have hjtake : j < (DOSE_ORDER.take (ORDER_INDEX dose)).length := by omega
      have := hprev j hjtake (by omega)
      have hgj : (DOSE_ORDER.take (ORDER_INDEX dose)).get ⟨j, hjtake⟩ =
          DOSE_ORDER.get ⟨j, hj⟩ := by
        simp [List.get_eq_getElem, List.getElem_take]
      rw [hgj] at this
      simpa using this

/-- The duplicate pre-check query of `create_vaccination`. -/
def dupFind (db : DB) (payload : VaccinationIn) : Option Vaccination :=
  db.vaccinations.find? (fun r =>
    decide (r.person_id = payload.person_id ∧
      r.vaccine_id = payload.vaccine_id ∧
      r.dose = payload.dose.value))

theorem create_checks_def (db : DB) (payload : VaccinationIn) (es : Bool) :
    create_checks db payload es =
      match db.getPerson payload.person_id with
      | none => .error .personNotFound
      | some _ =>
        match db.getVaccine payload.vaccine_id with
        | none => .error .vaccineNotFound
        | some v =>
          match ensure_dose_allowed v payload.dose with
          | .error e => .error e
          | .ok _ =>
            match (if es then
                    ensure_dose_order db.vaccinations payload.person_id
                      payload.vaccine_id payload.dose
                  else .ok ()) with
            | .error e => .error e
            | .ok _ =>
              match dupFind db payload with
              | some _ => .error .duplicateDose
              | none => .ok () := rfl

theorem create_checks_reduce (db : DB) (payload : VaccinationIn) (es : Bool)
    {p : Person} {v : Vaccine}
    (hp : db.getPerson payload.person_id = some p)
    (hv : db.getVaccine payload.vaccine_id = some v) :
    create_checks db payload es =
      match ensure_dose_allowed v payload.dose with
      | .error e => .error e
      | .ok _ =>
        match (if es then
                ensure_dose_order db.vaccinations payload.person_id
                  payload.vaccine_id payload.dose
              else .ok ()) with
        | .error e => .error e
        | .ok _ =>
          match dupFind db payload with
          | some _ => .error .duplicateDose
          | none => .ok () := by
  rw [create_checks_def, hp, hv]

theorem create_vaccination_snd_error_iff (db : DB) (payload : VaccinationIn)
    (es : Bool) (nid : String) (now : Nat) (e : RejectKind) :
    (create_vaccination db payload es nid now).2 = .error e ↔
      create_checks db payload es = .error e := by
  unfold create_vaccination
  cases h : create_checks db payload es <;> simp [h]

/-- The record `create_vaccination` inserts on the accept path. -/
def insertedRec (payload : VaccinationIn) (nid : String) (now : Nat) : Vaccination :=
  { id := nid
    person_id := payload.person_id
    vaccine_id := payload.vaccine_id
    dose := payload.dose.value
    applied_at := payload.applied_at
    lot := payload.lot
    location := payload.location
    created_at := now }

theorem create_vaccination_snd_ok_iff (db : DB) (payload : VaccinationIn)
    (es : Bool) (nid : String) (now : Nat) (rec : Vaccination) :
    (create_vaccination db payload es nid now).2 = .ok rec ↔
      (create_checks db payload es = .ok () ∧ rec = insertedRec payload nid now) := by
  unfold create_vaccination
  cases h : create_checks db payload es with
  | error e => simp [h]
  | ok u =>
    cases u
    simp [h, insertedRec, eq_comm]

theorem create_vaccination_fst_of_error (db : DB) (payload : VaccinationIn)
    (es : Bool) (nid : String) (now : Nat) (e : RejectKind)
    (h : (create_vaccination db payload es nid now).2 = .error e) :
    (create_vaccination db payload es nid now).1 = db := by
  unfold create_vaccination at h ⊢
  cases hc : create_checks db payload es <;> simp [hc] at h ⊢

theorem create_vaccination_fst_of_ok (db : DB) (payload : VaccinationIn)
    (es : Bool) (nid : String) (now : Nat) (rec : Vaccination)
    (h : (create_vaccination db payload es nid now).2 = .ok rec) :
    (create_vaccination db payload es nid now).1 =
      { db with vaccinations := db.vaccinations ++ [rec] } := by
  rw [create_vaccination_snd_ok_iff] at h
  unfold create_vaccination
  rw [h.1]
  rw [h.2]
  simp [insertedRec]

/-! ### Demo data used by the witness theorems -/

def demoPerson : Person :=
  { id := "p1", name := "Ana", document := "doc-1", sex := "F", age := 30 }

def demoVaccine : Vaccine :=
  { id := "v1", name := "Hep B", code := "hepb",
    allowed_doses := some ["D1", "D2", "D3", "R1"] }

def demoRecD1 : Vaccination :=
  { id := "r1", person_id := "p1", vaccine_id := "v1", dose := "D1",
    applied_at := 10, lot := none, location := none, created_at := 0 }

def demoRecD2 : Vaccination :=
  { id := "r2", person_id := "p1", vaccine_id := "v1", dose := "D2",
    applied_at := 20, lot := none, location := none, created_at := 0 }

/-- Demo state with no dose records. -/
def demoDB0 : DB :=
  { people := [demoPerson], vaccines := [demoVaccine], vaccinations := [] }

/-- Demo state with a D1 record on file. -/
def demoDB1 : DB :=
  { people := [demoPerson], vaccines := [demoVaccine], vaccinations := [demoRecD1] }

/-- Demo payload submitting a given dose for the demo person/vaccine. -/
def demoPayload (d : DoseEnum) : VaccinationIn :=
  { person_id := "p1", vaccine_id := "v1", dose := d,
    applied_at := 30, lot := none, location := none }

theorem create_checks_ok_parts {db : DB} {payload : VaccinationIn} {es : Bool}
    (h : create_checks db payload es = .ok ()) :
    (∃ p, db.getPerson payload.person_id = some p) ∧
    (∃ v, db.getVaccine payload.vaccine_id = some v ∧
      ensure_dose_allowed v payload.dose = .ok ()) ∧
    (es = true → ensure_dose_order db.vaccinations payload.person_id
      payload.vaccine_id payload.dose = .ok ()) ∧
    dupFind db payload = none := by
  rw [create_checks_def] at h
  cases hp : db.getPerson payload.person_id with
  | none => simp [hp] at h
  | some p =>
    simp only [hp] at h
    cases hv : db.getVaccine payload.vaccine_id with
    | none => simp [hv] at h
    | some v =>
      simp only [hv] at h
      cases ha : ensure_dose_allowed v payload.dose with
      | error e => simp [ha] at h
      | ok u =>
        cases u
        simp only [ha] at h
        cases hs : (if es then
            ensure_dose_order db.vaccinations payload.person_id
              payload.vaccine_id payload.dose
          else .ok ()) with
        | error e => simp [hs] at h
        | ok u =>
          cases u
          simp only [hs] at h
          cases hd : dupFind db payload with
          | some r => simp [hd] at h
          | none =>
            refine ⟨⟨p, rfl⟩, ⟨v, rfl, ha⟩, ?_, rfl⟩
            intro hes
            rw [hes] at hs
            simpa using hs

theorem create_checks_doseNotAllowed_iff {db : DB} {payload : VaccinationIn}
    {es : Bool} {p : Person} {v : Vaccine}
    (hp : db.getPerson payload.person_id = some p)
    (hv : db.getVaccine payload.vaccine_id = some v) (d : DoseEnum) (s : String) :
    create_checks db payload es = .error (.doseNotAllowed d s) ↔
      (d = payload.dose ∧ s = v.name ∧ payload.dose.value ∉ v.allowed_list) := by
  rw [create_checks_reduce db payload es hp hv]
  cases ha : ensure_dose_allowed v payload.dose with
  | error e =>
    rw [ensure_dose_allowed_error_iff] at ha
    obtain ⟨rfl, hnot⟩ := ha
    simp [hnot, eq_comm, and_comm]
  | ok u =>
    cases u
    have hmem : payload.dose.value ∈ v.allowed_list :=
      (ensure_dose_allowed_ok_iff v payload.dose).mp ha
    cases hs : (if es then
        ensure_dose_order db.vaccinations payload.person_id
          payload.vaccine_id payload.dose
      else .ok ()) with
    | error e =>
      have hshape : ∃ m, e = .sequenceViolation payload.dose m := by
        cases es with
        | false => simp at hs
        | true =>
          simp only [if_true] at hs
          obtain ⟨m, hm, -⟩ := ensure_dose_order_error_first hs
          exact ⟨m, hm⟩
      obtain ⟨m, rfl⟩ := hshape
      simp [hs, hmem]
    | ok u =>
      cases u
      simp only [hs]
      cases hd : dupFind db payload with
      | some r => simp [hd, hmem]
      | none => simp [hd, hmem]

deriving instance DecidableEq for Except

/-! ### Claim theorems -/

/-- Claim C1: with `enforce_sequence=true`, an accepted candidate at
global order index `k > 0` has every label at global indices `0..k-1`
already on file for that person and vaccine; a candidate at index 0
passes the sequence check trivially; and the prerequisite set is drawn
from the global ordering, not the vaccine's allowed subset — a vaccine
allowing only `{D1, D2, R1}` still rejects `R1` with `D3` as the missing
prior dose when `D1` and `D2` are on file. -/
theorem claim_C1 :
    (∀ (db : DB) (payload : VaccinationIn) (nid : String) (now : Nat)
        (rec : Vaccination),
      (create_vaccination db payload true nid now).2 = .ok rec →
      ∀ j, ∀ hj : j < DOSE_ORDER.length, j < ORDER_INDEX payload.dose →
        ∃ r ∈ db.vaccinations, r.person_id = payload.person_id ∧
          r.vaccine_id = payload.vaccine_id ∧
          r.dose = (DOSE_ORDER.get ⟨j, hj⟩).value) ∧
    (∀ (recs : List Vaccination) (pid vid : String) (dose : DoseEnum),
      ORDER_INDEX dose = 0 → ensure_dose_order recs pid vid dose = .ok ()) ∧
    ((create_vaccination
        { people := [demoPerson]
          vaccines := [{ id := "v1", name := "Gap", code := "gap",
                         allowed_doses := some ["D1", "D2", "R1"] }]
          vaccinations := [demoRecD1, demoRecD2] }
        (demoPayload .R1) true "r3" 0).2
      = .error (.sequenceViolation .R1 .D3)) := by
  refine ⟨?_, ?_, ?_⟩
  · intro db payload nid now rec h j hj hjk
    rw [create_vaccination_snd_ok_iff] at h
    obtain ⟨-, -, hseq, -⟩ := create_checks_ok_parts h.1
    have hseq' := hseq rfl
    rw [ensure_dose_order_ok_iff] at hseq'
    have hjt : j < (DOSE_ORDER.take (ORDER_INDEX payload.dose)).length := by
      simp only [List.length_take]
      omega
    have hget : (DOSE_ORDER.take (ORDER_INDEX payload.dose)).get ⟨j, hjt⟩ =
        DOSE_ORDER.get ⟨j, hj⟩ := by
      simp [List.get_eq_getElem, List.getElem_take]
    have hmem : DOSE_ORDER.get ⟨j, hj⟩ ∈ DOSE_ORDER.take (ORDER_INDEX payload.dose) := by
      rw [← hget]
      exact List.get_mem _ _ _
    have := hseq' _ hmem
    rw [mem_pairDoses] at this
    exact this
  · intro recs pid vid dose h0
    simp [ensure_dose_order, h0]
  · decide

/-- Witness for C1: the demo person has `D1` on file, so submitting `D2`
with sequencing on is accepted, and the theorem yields the `D1` record
as the prerequisite at global index 0. -/
theorem claim_C1_witness :
    ∃ r ∈ demoDB1.vaccinations, r.person_id = "p1" ∧ r.vaccine_id = "v1" ∧
      r.dose = (DOSE_ORDER.get ⟨0, by decide⟩).value := by
  have h := claim_C1.1 demoDB1 (demoPayload .D2) "r2" 0
    (insertedRec (demoPayload .D2) "r2" 0) (by decide) 0 (by decide) (by decide)
  simpa [demoPayload] using h

/-- Claim C2: when the referenced person and vaccine exist, the verdict
is `DoseNotAllowed` iff the candidate label is outside the vaccine's
configured allowed set — for either value of `enforce_sequence` — and a
vaccine whose allowed set is empty rejects every candidate this way. -/
theorem claim_C2 (db : DB) (payload : VaccinationIn) (es : Bool) (nid : String)
    (now : Nat) (p : Person) (v : Vaccine)
    (hp : db.getPerson payload.person_id = some p)
    (hv : db.getVaccine payload.vaccine_id = some v) :
    (((create_vaccination db payload es nid now).2 =
        .error (.doseNotAllowed payload.dose v.name)) ↔
      payload.dose.value ∉ v.allowed_list) ∧
    (v.allowed_list = [] →
      (create_vaccination db payload es nid now).2 =
        .error (.doseNotAllowed payload.dose v.name)) := by
  have hiff : ((create_vaccination db payload es nid now).2 =
      .error (.doseNotAllowed payload.dose v.name)) ↔
      payload.dose.value ∉ v.allowed_list := by
    rw [create_vaccination_snd_error_iff,
      create_checks_doseNotAllowed_iff hp hv payload.dose v.name]
    simp
  refine ⟨hiff, ?_⟩
  intro hempty
  rw [hiff, hempty]
  simp

/-- Witness for C2: the demo vaccine allows `{D1, D2, D3, R1}`, so a
candidate `R2` is rejected as `DoseNotAllowed`, and the same theorem's
iff confirms an allowed candidate (`D1`) is not rejected that way. -/
theorem claim_C2_witness :
    (create_vaccination demoDB0 (demoPayload .R2) true "r9" 0).2 =
      .error (.doseNotAllowed .R2 "Hep B") ∧
    ¬(create_vaccination demoDB0 (demoPayload .D1) false "r9" 0).2 =
      .error (.doseNotAllowed .D1 "Hep B") := by
  constructor
  · exact (claim_C2 demoDB0 (demoPayload .R2) true "r9" 0 demoPerson demoVaccine
      (by decide) (by decide)).1.mpr (by decide)
  · intro h
    have := (claim_C2 demoDB0 (demoPayload .D1) false "r9" 0 demoPerson demoVaccine
      (by decide) (by decide)).1.mp h
    exact this (by decide)

/-- Claim C3: every accepted submission preserves the uniqueness of the
(person, vaccine, dose label) triple: an accept implies the candidate's
triple was not yet on file, the store after the accept still satisfies
the invariant, and a candidate whose triple is already on file (and
passes the earlier checks) is rejected with `DuplicateDose`. -/
theorem claim_C3 (db : DB) (payload : VaccinationIn) (es : Bool) (nid : String)
    (now : Nat) (rec : Vaccination) (hu : UniqueTriples db)
    (hok : (create_vaccination db payload es nid now).2 = .ok rec) :
    UniqueTriples (create_vaccination db payload es nid now).1 ∧
    ¬(∃ r ∈ db.vaccinations, r.person_id = payload.person_id ∧
        r.vaccine_id = payload.vaccine_id ∧ r.dose = payload.dose.value) ∧
    (∀ (db' : DB) (payload' : VaccinationIn) (es' : Bool) (nid' : String)
        (now' : Nat) (p : Person) (v : Vaccine),
      db'.getPerson payload'.person_id = some p →
      db'.getVaccine payload'.vaccine_id = some v →
      payload'.dose.value ∈ v.allowed_list →
      (es' = true → ensure_dose_order db'.vaccinations payload'.person_id
        payload'.vaccine_id payload'.dose = .ok ()) →
      (∃ r ∈ db'.vaccinations, r.person_id = payload'.person_id ∧
        r.vaccine_id = payload'.vaccine_id ∧ r.dose = payload'.dose.value) →
      (create_vaccination db' payload' es' nid' now').2 = .error .duplicateDose) := by
  have hparts := create_vaccination_snd_ok_iff db payload es nid now rec |>.mp hok
  obtain ⟨hchk, hrec⟩ := hparts
  obtain ⟨-, -, -, hd⟩ := create_checks_ok_parts hchk
  have hnone : ∀ r ∈ db.vaccinations,
      ¬(r.person_id = payload.person_id ∧ r.vaccine_id = payload.vaccine_id ∧
        r.dose = payload.dose.value) := by
    unfold dupFind at hd
    intro r hr
    have := List.find?_eq_none.mp hd r hr
    simpa using this
  refine ⟨?_, ?_, ?_⟩
  · rw [create_vaccination_fst_of_ok db payload es nid now rec hok]
    unfold UniqueTriples at hu ⊢
    simp only []
    rw [List.pairwise_append]
    refine ⟨hu, by simp, ?_⟩
    intro a ha b hb
    simp only [List.mem_singleton] at hb
    subst hb
    intro hcon
    exact hnone a ha (by simpa [hrec, insertedRec] using hcon)
  · rintro ⟨r, hr, h1, h2, h3⟩
    exact hnone r hr ⟨h1, h2, h3⟩
  · intro db' payload' es' nid' now' p v hp hv hmem hseq hdup
    rw [create_vaccination_snd_error_iff, create_checks_reduce db' payload' es' hp hv]
    have ha : ensure_dose_allowed v payload'.dose = .ok () :=
      (ensure_dose_allowed_ok_iff v payload'.dose).mpr hmem
    simp only [ha]
    have hsval : (if es' then
        ensure_dose_order db'.vaccinations payload'.person_id
          payload'.vaccine_id payload'.dose
      else .ok ()) = Except.ok () := by
      cases es' with
      | false => simp
      | true => simpa using hseq rfl
    simp only [hsval]
    cases hdf : dupFind db' payload' with
    | none =>
      exfalso
      obtain ⟨r, hr, h1, h2, h3⟩ := hdup
      unfold dupFind at hdf
      have := List.find?_eq_none.mp hdf r hr
      simp only [decide_eq_true_eq] at this
      exact this ⟨h1, h2, h3⟩
    | some r => rfl

/-- Witness for C3: `demoDB1` (one `D1` record) satisfies the invariant,
submitting `D2` is accepted, and the theorem gives the invariant on the
resulting store. -/
theorem claim_C3_witness :
    UniqueTriples (create_vaccination demoDB1 (demoPayload .D2) true "r2" 0).1 :=
  (claim_C3 demoDB1 (demoPayload .D2) true "r2" 0
    (insertedRec (demoPayload .D2) "r2" 0)
    (by simp [UniqueTriples, demoDB1]) (by decide)).1

/-- Claim C6: the checks run in the fixed order allowed-dose, sequence,
uniqueness, and the first failure determines the verdict: a candidate
that is both outside the allowed set and a duplicate is rejected as
`DoseNotAllowed`; an allowed candidate that both violates the sequence
and is a duplicate is rejected with the sequence error. -/
theorem claim_C6 (db : DB) (payload : VaccinationIn) (nid : String) (now : Nat)
    (p : Person) (v : Vaccine)
    (hp : db.getPerson payload.person_id = some p)
    (hv : db.getVaccine payload.vaccine_id = some v) :
    (∀ es, payload.dose.value ∉ v.allowed_list →
      (∃ r ∈ db.vaccinations, r.person_id = payload.person_id ∧
        r.vaccine_id = payload.vaccine_id ∧ r.dose = payload.dose.value) →
      (create_vaccination db payload es nid now).2 =
        .error (.doseNotAllowed payload.dose v.name)) ∧
    (∀ e, payload.dose.value ∈ v.allowed_list →
      ensure_dose_order db.vaccinations payload.person_id
        payload.vaccine_id payload.dose = .error e →
      (∃ r ∈ db.vaccinations, r.person_id = payload.person_id ∧
        r.vaccine_id = payload.vaccine_id ∧ r.dose = payload.dose.value) →
      (create_vaccination db payload true nid now).2 = .error e) := by
  constructor
  · intro es hnot _
    rw [create_vaccination_snd_error_iff,
      create_checks_doseNotAllowed_iff hp hv payload.dose v.name]
    exact ⟨rfl, rfl, hnot⟩
  · intro e hmem hseq _
    rw [create_vaccination_snd_error_iff, create_checks_reduce db payload true hp hv]
    have ha : ensure_dose_allowed v payload.dose = .ok () :=
      (ensure_dose_allowed_ok_iff v payload.dose).mpr hmem
    simp only [ha, if_true, hseq]

/-- An `R2` record on file for the demo person and vaccine. -/
def demoRecR2 : Vaccination :=
  { id := "rx", person_id := "p1", vaccine_id := "v1", dose := "R2",
    applied_at := 5, lot := none, location := none, created_at := 0 }

/-- A `D3` record on file for the demo person and vaccine. -/
def demoRecD3 : Vaccination :=
  { id := "ry", person_id := "p1", vaccine_id := "v1", dose := "D3",
    applied_at := 15, lot := none, location := none, created_at := 0 }

/-- Demo state whose history already holds `R2`. -/
def demoDBR2 : DB :=
  { people := [demoPerson], vaccines := [demoVaccine], vaccinations := [demoRecR2] }

/-- Demo state whose history holds `D1` and `D3` but not `D2`. -/
def demoDBD1D3 : DB :=
  { people := [demoPerson], vaccines := [demoVaccine],
    vaccinations := [demoRecD1, demoRecD3] }

/-- Witness for C6: with an `R2` record already on file, resubmitting the
disallowed `R2` yields `DoseNotAllowed`; with `D1` and `D3` on file,
resubmitting the allowed `D3` (missing `D2`) yields the sequence error,
not `DuplicateDose`. -/
theorem claim_C6_witness :
    ((create_vaccination demoDBR2 (demoPayload .R2) true "n1" 0).2 =
      .error (.doseNotAllowed .R2 "Hep B")) ∧
    ((create_vaccination demoDBD1D3 (demoPayload .D3) true "n2" 0).2 =
      .error (.sequenceViolation .D3 .D2)) := by
  constructor
  · exact (claim_C6 demoDBR2 (demoPayload .R2) "n1" 0 demoPerson demoVaccine
      (by decide) (by decide)).1 true (by decide)
      ⟨demoRecR2, by decide, by decide, by decide, by decide⟩
  · exact (claim_C6 demoDBD1D3 (demoPayload .D3) "n2" 0 demoPerson demoVaccine
      (by decide) (by decide)).2 (.sequenceViolation .D3 .D2) (by decide) (by decide)
      ⟨demoRecD3, by decide, by decide, by decide, by decide⟩

/-- Claim C7: a vaccine whose stored allowed-dose text is unreadable
recovers to the full default global ordering: `allowed_list` returns all
five labels instead of propagating a failure, so the allowed-dose check
accepts every dose label for such a vaccine. -/
theorem claim_C7 (v : Vaccine) (h : v.allowed_doses = none) :
    v.allowed_list = DOSE_ORDER.map DoseEnum.value ∧
    (∀ d : DoseEnum, ensure_dose_allowed v d = .ok ()) := by
  have hl : v.allowed_list = DOSE_ORDER.map DoseEnum.value := by
    simp [Vaccine.allowed_list, h]
  refine ⟨hl, ?_⟩
  intro d
  rw [ensure_dose_allowed_ok_iff, hl]
  cases d <;> simp [DoseEnum.value, DOSE_ORDER]

/-- A vaccine whose stored allowed-set blob does not decode. -/
def corruptVaccine : Vaccine :=
  { id := "vc", name := "Corrupt", code := "corrupt", allowed_doses := none }

/-- Witness for C7: the corrupt demo vaccine behaves as if all five
labels were allowed. -/
theorem claim_C7_witness :
    corruptVaccine.allowed_list = DOSE_ORDER.map DoseEnum.value ∧
    (∀ d : DoseEnum, ensure_dose_allowed corruptVaccine d = .ok ()) :=
  claim_C7 corruptVaccine rfl

/-- Claim C8: a rejected submission leaves the store untouched — the
state component returned with a typed error is exactly the input state —
and a record is persisted only on the accept path, where the new store
is the old one extended with exactly the accepted record. -/
theorem claim_C8 (db : DB) (payload : VaccinationIn) (es : Bool) (nid : String)
    (now : Nat) :
    (∀ e, (create_vaccination db payload es nid now).2 = .error e →
      (create_vaccination db payload es nid now).1 = db) ∧
    (∀ rec, (create_vaccination db payload es nid now).2 = .ok rec →
      (create_vaccination db payload es nid now).1.people = db.people ∧
      (create_vaccination db payload es nid now).1.vaccines = db.vaccines ∧
      (create_vaccination db payload es nid now).1.vaccinations =
        db.vaccinations ++ [rec]) := by
  constructor
  · intro e h
    exact create_vaccination_fst_of_error db payload es nid now e h
  · intro rec h
    rw [create_vaccination_fst_of_ok db payload es nid now rec h]
    exact ⟨rfl, rfl, rfl⟩

/-- Witness for C8: a sequence-violating `D3` against the empty demo
history is rejected and leaves the store unchanged; an accepted `D1`
extends the store by exactly the new record. -/
theorem claim_C8_witness :
    (create_vaccination demoDB0 (demoPayload .D3) true "n1" 0).1 = demoDB0 ∧
    (create_vaccination demoDB0 (demoPayload .D1) true "n2" 7).1.vaccinations =
      demoDB0.vaccinations ++ [insertedRec (demoPayload .D1) "n2" 7] := by
  constructor
  · exact (claim_C8 demoDB0 (demoPayload .D3) true "n1" 0).1
      (.sequenceViolation .D3 .D1) (by decide)
  · exact ((claim_C8 demoDB0 (demoPayload .D1) true "n2" 7).2
      (insertedRec (demoPayload .D1) "n2" 7) (by decide)).2.2

/-- Claim C9: when the sequence check fails, the reported missing prior
dose is the one with the lowest global index among all missing
prerequisites: it is itself missing from the pair's history, it precedes
the candidate, and every strictly earlier label is on file. -/
theorem claim_C9 (recs : List Vaccination) (pid vid : String) (dose : DoseEnum)
    (e : RejectKind) (h : ensure_dose_order recs pid vid dose = .error e) :
    ∃ m, e = .sequenceViolation dose m ∧ ORDER_INDEX m < ORDER_INDEX dose ∧
      ¬(∃ r ∈ recs, r.person_id = pid ∧ r.vaccine_id = vid ∧ r.dose = m.value) ∧
      ∀ j, ∀ hj : j < DOSE_ORDER.length, j < ORDER_INDEX m →
        ∃ r ∈ recs, r.person_id = pid ∧ r.vaccine_id = vid ∧
          r.dose = (DOSE_ORDER.get ⟨j, hj⟩).value := by
  obtain ⟨m, he, hlt, hmiss, hall⟩ := ensure_dose_order_error_first h
  refine ⟨m, he, hlt, ?_, ?_⟩
  · intro hc
    exact hmiss (mem_pairDoses.mpr hc)
  · intro j hj hjm
    exact mem_pairDoses.mp (hall j hj hjm)

/-- Witness for C9: submitting `D3` against an empty history reports
`D1` — the lowest-index missing prerequisite — not `D2`. -/
theorem claim_C9_witness :
    ∃ m, (RejectKind.sequenceViolation .D3 .D1) = .sequenceViolation .D3 m ∧
      ORDER_INDEX m < ORDER_INDEX .D3 ∧
      ¬(∃ r ∈ ([] : List Vaccination), r.person_id = "p1" ∧
        r.vaccine_id = "v1" ∧ r.dose = m.value) ∧
      ∀ j, ∀ hj : j < DOSE_ORDER.length, j < ORDER_INDEX m →
        ∃ r ∈ ([] : List Vaccination), r.person_id = "p1" ∧ r.vaccine_id = "v1" ∧
          r.dose = (DOSE_ORDER.get ⟨j, hj⟩).value :=
  claim_C9 [] "p1" "v1" .D3 (.sequenceViolation .D3 .D1) (by decide)

/-- Claim C10: existence checks precede all dose checks: a candidate
referencing a missing person is rejected `personNotFound` whatever the
dose situation, and one referencing an existing person but a missing
vaccine is rejected `vaccineNotFound` — never with a dose verdict. -/
theorem claim_C10 (db : DB) (payload : VaccinationIn) (es : Bool) (nid : String)
    (now : Nat) :
    (db.getPerson payload.person_id = none →
      (create_vaccination db payload es nid now).2 = .error .personNotFound) ∧
    (∀ p, db.getPerson payload.person_id = some p →
      db.getVaccine payload.vaccine_id = none →
      (create_vaccination db payload es nid now).2 = .error .vaccineNotFound) := by
  constructor
  · intro hp
    rw [create_vaccination_snd_error_iff, create_checks_def, hp]
  · intro p hp hv
    rw [create_vaccination_snd_error_iff, create_checks_def, hp, hv]

/-- Demo state with no people at all. -/
def demoDBnoPeople : DB :=
  { people := [], vaccines := [demoVaccine], vaccinations := [] }

/-- Demo payload referencing a vaccine id absent from the catalog. -/
def demoPayloadNoVac : VaccinationIn :=
  { person_id := "p1", vaccine_id := "v9", dose := .R2,
    applied_at := 1, lot := none, location := none }

/-- Witness for C10: a missing person gives `personNotFound`; an existing
person with a missing vaccine gives `vaccineNotFound` even though the
candidate dose (`R2`) would also fail the dose checks. -/
theorem claim_C10_witness :
    (create_vaccination demoDBnoPeople (demoPayload .D1) true "n1" 0).2 =
      .error .personNotFound ∧
    (create_vaccination demoDB0 demoPayloadNoVac false "n2" 0).2 =
      .error .vaccineNotFound := by
  constructor
  · exact (claim_C10 demoDBnoPeople (demoPayload .D1) true "n1" 0).1 (by decide)
  · exact (claim_C10 demoDB0 demoPayloadNoVac false "n2" 0).2 demoPerson
      (by decide) (by decide)

/-! ### Helper lemmas about the card projector -/

theorem firstKeys_mem (l : List String) (k : String) : k ∈ firstKeys l ↔ k ∈ l := by
  induction l with
  | nil => simp [firstKeys]
  | cons a t ih =>
    simp only [firstKeys, List.mem_cons, List.mem_filter, decide_eq_true_eq]
    by_cases hk : k = a
    · simp [hk]
    · simp [hk, ih]

theorem firstKeys_nodup (l : List String) : (firstKeys l).Nodup := by
  induction l with
  | nil => simp [firstKeys]
  | cons a t ih =>
    simp only [firstKeys]
    refine List.Nodup.cons ?_ (ih.filter _)
    intro hmem
    rw [List.mem_filter] at hmem
    simp at hmem

theorem flatten_filter_perm {α : Type} (f : α → String) :
    ∀ (ks : List String) (recs : List α), ks.Nodup →
      (∀ r ∈ recs, f r ∈ ks) →
      ((ks.map (fun k => recs.filter (fun r => decide (f r = k)))).flatten).Perm recs := by
  intro ks
  induction ks with
  | nil =>
    intro recs _ hcov
    cases recs with
    | nil => simp
    | cons r t => exact absurd (hcov r (by simp)) (by simp)
  | cons k ks ih =>
    intro recs hnd hcov
    simp only [List.map_cons, List.flatten_cons]
    have hnd' : ks.Nodup := (List.nodup_cons.mp hnd).2
    have hknotin : k ∉ ks := (List.nodup_cons.mp hnd).1
    have hmapeq : ks.map (fun k' => recs.filter (fun r => decide (f r = k'))) =
        ks.map (fun k' => (recs.filter (fun r => !decide (f r = k))).filter
          (fun r => decide (f r = k'))) := by
      apply List.map_congr_left
      intro k' hk'
      rw [List.filter_filter]
      apply List.filter_congr
      intro r _
      by_cases h : f r = k'
      · have hne : ¬(f r = k) := by
          rw [h]
          intro hc
          exact hknotin (hc ▸ hk')
        simp [h, hne]
        intro hc
        exact hknotin (hc ▸ hk')
      · simp [h]
    rw [hmapeq]
    have hcov' : ∀ r ∈ recs.filter (fun r => !decide (f r = k)), f r ∈ ks := by
      intro r hr
      rw [List.mem_filter] at hr
      have hm := hcov r hr.1
      simp only [List.mem_cons] at hm
      rcases hm with h | h
      · exfalso
        have := hr.2
        simp [h] at this
      · exact h
    have hperm := ih (recs.filter (fun r => !decide (f r = k))) hnd' hcov'
    exact List.Perm.trans (List.Perm.append_left _ hperm)
      (List.filter_append_perm _ recs)

theorem mem_personRecsSorted {db : DB} {p : Person} {r : Vaccination} :
    r ∈ personRecsSorted db p ↔ r ∈ db.vaccinations ∧ r.person_id = p.id := by
  simp [personRecsSorted, List.mem_mergeSort, List.mem_filter]

theorem personRecsSorted_perm (db : DB) (p : Person) :
    (personRecsSorted db p).Perm
      (db.vaccinations.filter (fun r => decide (r.person_id = p.id))) :=
  List.mergeSort_perm _ _

theorem personRecsSorted_sorted (db : DB) (p : Person) :
    (personRecsSorted db p).Pairwise (fun a b => a.applied_at ≤ b.applied_at) := by
  have h := @List.sorted_mergeSort Vaccination
    (fun a b => decide (a.applied_at ≤ b.applied_at))
    (fun a b c h1 h2 => by
      simp only [decide_eq_true_eq] at h1 h2 ⊢
      omega)
    (fun a b => by
      simp only [Bool.or_eq_true, decide_eq_true_eq]
      omega)
    (db.vaccinations.filter (fun r => decide (r.person_id = p.id)))
  exact h.imp (fun hab => by simpa using hab)

/-- Claim C5: the list view has one block per vaccine with at least one
record for the person (and none for vaccines without records), block ids
are pairwise distinct, the union of all block entries is exactly the
person's full record set, and each block's entries are ordered by
applied date ascending. -/
theorem claim_C5 (db : DB) (pid : String) (L : CardListOut)
    (h : get_card db pid .list = some (.listView L)) :
    (∀ vid, (∃ b ∈ L.vaccines, b.vaccine_id = vid) ↔
      (∃ r ∈ db.vaccinations, r.person_id = pid ∧ r.vaccine_id = vid)) ∧
    (L.vaccines.map (fun b => b.vaccine_id)).Nodup ∧
    (∀ b ∈ L.vaccines, b.entries ≠ []) ∧
    ((L.vaccines.map (fun b => b.entries)).flatten).Perm
      ((db.vaccinations.filter (fun r => decide (r.person_id = pid))).map
        toCardEntry) ∧
    (∀ b ∈ L.vaccines,
      b.entries.Pairwise (fun e1 e2 => e1.applied_at ≤ e2.applied_at)) := by
  unfold get_card at h
  cases hp : db.getPerson pid with
  | none =>
    rw [hp] at h
    cases h
  | some p =>
    rw [hp] at h
    have h2 : CardView.listView (cardListView db p) = .listView L := Option.some.inj h
    have hL : cardListView db p = L := by injection h2
    have hp' : db.people.find? (fun q => decide (q.id = pid)) = some p := hp
    have hdec := @List.find?_some Person (fun q => decide (q.id = pid)) p db.people hp'
    have hpid : p.id = pid := by simpa using hdec
    subst hL
    subst hpid
    have hvac : (cardListView db p).vaccines = listBlocks db p := rfl
    rw [hvac]
    have hcover : ∀ r ∈ personRecsSorted db p, r.vaccine_id ∈
        firstKeys ((personRecsSorted db p).map (fun r => r.vaccine_id)) :=
      fun r hr => (firstKeys_mem _ _).mpr (List.mem_map_of_mem _ hr)
    refine ⟨?_, ?_, ?_, ?_, ?_⟩
    · intro vid
      constructor
      · rintro ⟨b, hb, hbv⟩
        unfold listBlocks at hb
        rw [List.mem_map] at hb
        obtain ⟨k, hk, rfl⟩ := hb
        have hkv : k = vid := hbv
        subst hkv
        have hk' := (firstKeys_mem _ _).mp hk
        rw [List.mem_map] at hk'
        obtain ⟨r, hr, hrk⟩ := hk'
        have hr' := mem_personRecsSorted.mp hr
        exact ⟨r, hr'.1, hr'.2, hrk⟩
      · rintro ⟨r, hr, hrp, hrv⟩
        have hkmem : vid ∈ firstKeys ((personRecsSorted db p).map
            (fun r => r.vaccine_id)) := by
          refine (firstKeys_mem _ _).mpr (List.mem_map.mpr ⟨r, ?_, hrv⟩)
          exact mem_personRecsSorted.mpr ⟨hr, hrp⟩
        exact ⟨_, List.mem_map_of_mem _ hkmem, rfl⟩
    · have hids : (listBlocks db p).map (fun b => b.vaccine_id) =
          firstKeys ((personRecsSorted db p).map (fun r => r.vaccine_id)) := by
        unfold listBlocks
        rw [List.map_map]
        show List.map (fun k : String => k)
            (firstKeys ((personRecsSorted db p).map (fun r => r.vaccine_id))) =
          firstKeys ((personRecsSorted db p).map (fun r => r.vaccine_id))
        exact List.map_id' _
      rw [hids]
      exact firstKeys_nodup _
    · intro b hb
      unfold listBlocks at hb
      rw [List.mem_map] at hb
      obtain ⟨k, hk, rfl⟩ := hb
      intro hemp
      have hemp' : ((personRecsSorted db p).filter
          (fun r => decide (r.vaccine_id = k))).map toCardEntry = [] := hemp
      rw [List.map_eq_nil_iff] at hemp'
      have hk' := (firstKeys_mem _ _).mp hk
      rw [List.mem_map] at hk'
      obtain ⟨r, hr, hrk⟩ := hk'
      have hmem : r ∈ (personRecsSorted db p).filter
          (fun r => decide (r.vaccine_id = k)) := by
        rw [List.mem_filter]
        exact ⟨hr, by simp [hrk]⟩
      rw [hemp'] at hmem
      cases hmem
    · unfold listBlocks
      rw [List.map_map]
      have h1 := (flatten_filter_perm (fun r : Vaccination => r.vaccine_id)
        (firstKeys ((personRecsSorted db p).map (fun r => r.vaccine_id)))
        (personRecsSorted db p) (firstKeys_nodup _) hcover).trans
        (personRecsSorted_perm db p)
      have h2 := h1.map toCardEntry
      rw [List.map_flatten, List.map_map] at h2
      exact h2
    · intro b hb
      unfold listBlocks at hb
      rw [List.mem_map] at hb
      obtain ⟨k, hk, rfl⟩ := hb
      exact List.Pairwise.map _ (fun a b hab => hab)
        ((personRecsSorted_sorted db p).filter _)

/-- Witness for C5: for the demo person with one `Hep B` record, a block
for that vaccine exists (and the block ids are distinct), matching the
record on file. -/
theorem claim_C5_witness :
    ((∃ b ∈ (cardListView demoDB1 demoPerson).vaccines, b.vaccine_id = "v1") ↔
      (∃ r ∈ demoDB1.vaccinations, r.person_id = "p1" ∧ r.vaccine_id = "v1")) ∧
    ((cardListView demoDB1 demoPerson).vaccines.map (fun b => b.vaccine_id)).Nodup := by
  have h := claim_C5 demoDB1 "p1" (cardListView demoDB1 demoPerson) rfl
  exact ⟨h.1 "v1", h.2.1⟩

theorem isSome_option_map {α β : Type} (f : α → β) (o : Option α) :
    (o.map f).isSome = o.isSome := by
  cases o <;> rfl

theorem byDoseVaccine_isSome (recs : List Vaccination) (dv vid : String) :
    (byDoseVaccine recs dv vid).isSome = true ↔
      ∃ r ∈ recs, r.dose = dv ∧ r.vaccine_id = vid := by
  unfold byDoseVaccine
  rw [List.find?_isSome]
  constructor
  · rintro ⟨r, hr, hpr⟩
    rw [List.mem_reverse] at hr
    simp only [decide_eq_true_eq] at hpr
    exact ⟨r, hr, hpr⟩
  · rintro ⟨r, hr, h1, h2⟩
    exact ⟨r, List.mem_reverse.mpr hr, by simp [h1, h2]⟩

/-- Claim C4: the matrix view has exactly the five global dose labels as
rows, one column per catalog vaccine ordered by display name ascending
(vaccines without records included), and `grid[row][col]` is non-empty
iff the person has a record with that row's dose label and that column's
vaccine. -/
theorem claim_C4 (db : DB) (pid : String) (M : CardMatrixOut)
    (h : get_card db pid .matrix = some (.matrixView M)) :
    M.rows = DOSE_ORDER ∧
    M.rows.length = 5 ∧
    M.grid.length = 5 ∧
    (∃ vs : List Vaccine, vs.Perm db.vaccines ∧
      vs.Pairwise (fun a b => a.name ≤ b.name) ∧
      M.cols = vs.map (fun v => { vaccine_id := v.id, vaccine_name := v.name })) ∧
    M.cols.length = db.vaccines.length ∧
    (∀ i, ∀ hi : i < M.grid.length, (M.grid.get ⟨i, hi⟩).length = M.cols.length) ∧
    (∀ i j, ∀ hi : i < M.grid.length, ∀ hj : j < (M.grid.get ⟨i, hi⟩).length,
      ∀ hi5 : i < DOSE_ORDER.length, ∀ hjc : j < M.cols.length,
      (((M.grid.get ⟨i, hi⟩).get ⟨j, hj⟩).isSome = true ↔
        ∃ r ∈ db.vaccinations, r.person_id = pid ∧
          r.dose = (DOSE_ORDER.get ⟨i, hi5⟩).value ∧
          r.vaccine_id = (M.cols.get ⟨j, hjc⟩).vaccine_id)) := by
  unfold get_card at h
  cases hp : db.getPerson pid with
  | none =>
    rw [hp] at h
    cases h
  | some p =>
    rw [hp] at h
    have h2 : CardView.matrixView (cardMatrixView db p) = .matrixView M := Option.some.inj h
    have hM : cardMatrixView db p = M := by injection h2
    have hp' : db.people.find? (fun q => decide (q.id = pid)) = some p := hp
    have hdec := @List.find?_some Person (fun q => decide (q.id = pid)) p db.people hp'
    have hpid : p.id = pid := by simpa using hdec
    subst hM
    subst hpid
    have hrows : (cardMatrixView db p).rows = DOSE_ORDER := rfl
    have hcols : (cardMatrixView db p).cols =
        (db.vaccines.mergeSort (fun a b => decide (a.name ≤ b.name))).map
          (fun v => { vaccine_id := v.id, vaccine_name := v.name : MatrixCol }) := rfl
    have hgrid : (cardMatrixView db p).grid =
        DOSE_ORDER.map (fun d =>
          ((db.vaccines.mergeSort (fun a b => decide (a.name ≤ b.name))).map
            (fun v => { vaccine_id := v.id, vaccine_name := v.name : MatrixCol })).map
          (fun c =>
            (byDoseVaccine (db.vaccinations.filter
                (fun r => decide (r.person_id = p.id))) d.value c.vaccine_id).map
              toMatrixCell)) := rfl
    refine ⟨hrows, by rw [hrows]; rfl, by rw [hgrid]; simp [DOSE_ORDER], ?_, ?_, ?_, ?_⟩
    · refine ⟨db.vaccines.mergeSort (fun a b => decide (a.name ≤ b.name)),
        List.mergeSort_perm _ _, ?_, hcols⟩
      have hs := @List.sorted_mergeSort Vaccine
        (fun a b => decide (a.name ≤ b.name))
        (fun a b c h1 h2 => by
          simp only [decide_eq_true_eq] at h1 h2 ⊢
          exact le_trans h1 h2)
        (fun a b => by
          simp only [Bool.or_eq_true, decide_eq_true_eq]
          exact le_total a.name b.name)
        db.vaccines
      exact hs.imp (fun hab => by simpa using hab)
    · rw [hcols]
      simp [List.length_mergeSort]
    · intro i hi
      simp only [List.get_eq_getElem, hgrid, hcols, List.getElem_map, List.length_map]
    · intro i j hi hj hi5 hjc
      simp only [List.get_eq_getElem, hgrid, hcols, List.getElem_map]
      rw [isSome_option_map, byDoseVaccine_isSome]
      constructor
      · rintro ⟨r, hr, h1, h2⟩
        rw [List.mem_filter] at hr
        refine ⟨r, hr.1, by simpa using hr.2, h1, ?_⟩
        simpa using h2
      · rintro ⟨r, hr, hrp, h1, h2⟩
        refine ⟨r, List.mem_filter.mpr ⟨hr, by simp [hrp]⟩, h1, ?_⟩
        simpa using h2

/-- Witness for C4: the matrix view of the demo person has the five
global dose labels as rows and five grid rows. -/
theorem claim_C4_witness :
    (cardMatrixView demoDB1 demoPerson).rows = DOSE_ORDER ∧
    (cardMatrixView demoDB1 demoPerson).grid.length = 5 := by
  have h := claim_C4 demoDB1 "p1" (cardMatrixView demoDB1 demoPerson) rfl
  exact ⟨h.1, h.2.2.1⟩
